import Mathlib

/-!
Verification of the response-generation core of the real-estate chatbot
server (Express + Mongoose + Mistral client).

Shallow embedding conventions:
* JavaScript strings are modelled as `List Char`; string literals from the
  source are written with `.toList`.
* `undefined`/missing string fields and the empty string are both falsy in
  JavaScript; fields are modelled as `Option (List Char)` and truthiness as
  `jsTruthy` (`some s` with `s` nonempty).
* `String.prototype.toLowerCase`/`toUpperCase` are modelled on the ASCII
  range (all string data in this code base is ASCII apart from fixed
  literals that contain no cased characters).
* The regular expressions of the source are compiled by hand into
  deterministic scanning functions; each one is documented at its
  definition with the regex it implements and the reasoning about
  backtracking that justifies the determinisation.
-/

set_option maxRecDepth 1000000

/-! ## Character helpers (ASCII model of JS string primitives) -/

/-- ASCII model of the character class `\s` of JavaScript regexes
(space, tab, newline, carriage return, vertical tab, form feed). -/
def isWsChar (c : Char) : Bool :=
  c == ' ' || c == '\t' || c == '\n' || c == '\r' || c == '\x0b' || c == '\x0c'

/-- ASCII letter (the class `[a-z]` under the `i` flag). -/
def isAsciiLetterChar (c : Char) : Bool :=
  ('a' ≤ c && c ≤ 'z') || ('A' ≤ c && c ≤ 'Z')

/-- ASCII model of `String.prototype.toLowerCase`, written as an explicit
table so that per-character facts reduce by `decide`. -/
def lowerChar (c : Char) : Char :=
  match c with
  | 'A' => 'a' | 'B' => 'b' | 'C' => 'c' | 'D' => 'd' | 'E' => 'e'
  | 'F' => 'f' | 'G' => 'g' | 'H' => 'h' | 'I' => 'i' | 'J' => 'j'
  | 'K' => 'k' | 'L' => 'l' | 'M' => 'm' | 'N' => 'n' | 'O' => 'o'
  | 'P' => 'p' | 'Q' => 'q' | 'R' => 'r' | 'S' => 's' | 'T' => 't'
  | 'U' => 'u' | 'V' => 'v' | 'W' => 'w' | 'X' => 'x' | 'Y' => 'y'
  | 'Z' => 'z' | other => other

/-- ASCII model of `String.prototype.toUpperCase`. -/
def upperChar (c : Char) : Char :=
  match c with
  | 'a' => 'A' | 'b' => 'B' | 'c' => 'C' | 'd' => 'D' | 'e' => 'E'
  | 'f' => 'F' | 'g' => 'G' | 'h' => 'H' | 'i' => 'I' | 'j' => 'J'
  | 'k' => 'K' | 'l' => 'L' | 'm' => 'M' | 'n' => 'N' | 'o' => 'O'
  | 'p' => 'P' | 'q' => 'Q' | 'r' => 'R' | 's' => 'S' | 't' => 'T'
  | 'u' => 'U' | 'v' => 'V' | 'w' => 'W' | 'x' => 'X' | 'y' => 'Y'
  | 'z' => 'Z' | other => other

/-- `message.toLowerCase()`. -/
def lowerStr (s : List Char) : List Char := s.map lowerChar

/-- JavaScript truthiness of an optional string field: `undefined` and the
empty string are falsy, every other string is truthy. -/
def jsTruthy (o : Option (List Char)) : Bool :=
  match o with
  | some s => !s.isEmpty
  | none => false

/-- Template-literal interpolation of an optional string field
(`undefined` prints as the text "undefined"). -/
def jsStr (o : Option (List Char)) : List Char :=
  match o with
  | some s => s
  | none => "undefined".toList

/-- `String.prototype.trim` (removes `\s` from both ends). -/
def trimWs (s : List Char) : List Char :=
  ((s.dropWhile isWsChar).reverse.dropWhile isWsChar).reverse

/-! ## Hand-compiled regexes of `extractUserInfo` (chatbotController.js 5-36) -/

/-- Case-insensitive literal matching: strips `lit` (case-insensitively)
from the front of `s`, returning the rest, or `none`. -/
def stripLitCI : List Char → List Char → Option (List Char)
  | [], s => some s
  | _ :: _, [] => none
  | p :: ps, c :: cs => if lowerChar c == lowerChar p then stripLitCI ps cs else none

/-- The class `[a-z\s]` under the `i` flag. -/
def isNameChar (c : Char) : Bool := isAsciiLetterChar c || isWsChar c

/-- A greedy final capture succeeds only when nonempty (`+` quantifier). -/
def capNonempty (cap : List Char) : Option (List Char) :=
  if cap.isEmpty then none else some cap

/-- One attempt of `/(?:my name is|i am|i'm) ([a-z\s]+)/i` anchored at the
start of `s`: the three alternatives are tried in order (their first
characters make at most one of them applicable at a given position), then
a literal space, then the greedy nonempty capture `[a-z\s]+` (nothing
follows the capture, so the greedy run is maximal and final). Returns the
capture. -/
def tryNameAt (s : List Char) : Option (List Char) :=
  tryPat "my name is".toList <|> tryPat "i am".toList <|> tryPat "i'm".toList
where
  tryPat (lit : List Char) : Option (List Char) :=
    match stripLitCI lit s with
    | some (' ' :: rest) => capNonempty (rest.takeWhile isNameChar)
    | _ => none

/-- Leftmost-match scan for the name regex: JavaScript `String.match`
returns the match at the first position where the pattern succeeds. -/
def nameMatchScan : List Char → Option (List Char)
  | [] => none
  | c :: rest => tryNameAt (c :: rest) <|> nameMatchScan rest

/-- The class `[\d,.]`. -/
def isBudgetChar (c : Char) : Bool := c.isDigit || c == ',' || c == '.'

/-- One attempt of `/(?:budget|afford|looking for|range|price) [^\d]*(\d+[\d,.]*)/i`
anchored at the start of `s`: a literal (the alternatives start with
distinct letters), a literal space, then `[^\d]*` which — being unable to
consume digits — ends exactly at the first digit of the remainder (and the
whole attempt fails if the remainder has no digit), then the capture
`\d+[\d,.]*`, a maximal run of digits/commas/dots starting at that first
digit. -/
def tryBudgetAt (s : List Char) : Option (List Char) :=
  tryPat "budget".toList <|> tryPat "afford".toList <|> tryPat "looking for".toList <|>
    tryPat "range".toList <|> tryPat "price".toList
where
  tryPat (lit : List Char) : Option (List Char) :=
    match stripLitCI lit s with
    | some (' ' :: rest) =>
      match rest.dropWhile (fun c => !c.isDigit) with
      | [] => none
      | d :: tail => some (d :: tail.takeWhile isBudgetChar)
    | _ => none

/-- Leftmost-match scan for the budget regex. -/
def budgetMatchScan : List Char → Option (List Char)
  | [] => none
  | c :: rest => tryBudgetAt (c :: rest) <|> budgetMatchScan rest

/-- The class `[a-z\s,]` under the `i` flag. -/
def isLocChar (c : Char) : Bool := isAsciiLetterChar c || isWsChar c || c == ','

/-- One attempt of `/(?:location|area|place|interested in) ([a-z\s,]+)/i`
anchored at the start of `s` (alternatives start with distinct letters;
greedy nonempty final capture). -/
def tryLocAt (s : List Char) : Option (List Char) :=
  tryPat "location".toList <|> tryPat "area".toList <|> tryPat "place".toList <|>
    tryPat "interested in".toList
where
  tryPat (lit : List Char) : Option (List Char) :=
    match stripLitCI lit s with
    | some (' ' :: rest) => capNonempty (rest.takeWhile isLocChar)
    | _ => none

/-- Leftmost-match scan for the location regex. -/
def locMatchScan : List Char → Option (List Char)
  | [] => none
  | c :: rest => tryLocAt (c :: rest) <|> locMatchScan rest

/-- The fixed property-type vocabulary (chatbotController.js line 27). -/
def propertyTypes : List (List Char) :=
  ["apartment".toList, "house".toList, "condo".toList, "villa".toList,
   "flat".toList, "studio".toList, "penthouse".toList, "duplex".toList]

/-- The `for...of` loop with `break` over the vocabulary:
first vocabulary word (in list order) contained in `m`. -/
def findPropertyType (m : List Char) : List (List Char) → Option (List Char)
  | [] => none
  | t :: ts => if t <:+: m then some t else findPropertyType m ts

/-- Extraction output: a partial attribute set (chatbotController.js 5-36). -/
structure ExtractedInfo where
  name : Option (List Char) := none
  budget : Option (List Char) := none
  preferredLocation : Option (List Char) := none
  propertyType : Option (List Char) := none
  deriving Repr, DecidableEq

/-- `extractUserInfo` (chatbotController.js 5-36). Each regex capture is
nonempty by construction, so the JavaScript truthiness test
`nameMatch && nameMatch[1]` is kept as the `isEmpty` guard. -/
def extractUserInfo (message : List Char) : ExtractedInfo :=
  { name :=
      match nameMatchScan message with
      | some cap => if cap.isEmpty then none else some (trimWs cap)
      | none => none
    budget :=
      match budgetMatchScan message with
      | some cap => if cap.isEmpty then none else some (trimWs cap)
      | none => none
    preferredLocation :=
      match locMatchScan message with
      | some cap => if cap.isEmpty then none else some (trimWs cap)
      | none => none
    propertyType := findPropertyType (lowerStr message) propertyTypes }

/-! ## Lead context and the template responder (chatbotController.js 39-93) -/

/-- The `uiInfo` object attached by the generation orchestrator
(chatbotController.js 100-106). -/
structure UiInfo where
  width : Nat
  height : Nat
  isNotionStyle : Bool
  deriving Repr, DecidableEq

/-- The lead-attribute snapshot as seen by the responder, the prompt
builder and the orchestrator. String attributes carry JavaScript
truthiness via `jsTruthy`. -/
structure LeadCtx where
  name : Option (List Char) := none
  budget : Option (List Char) := none
  preferredLocation : Option (List Char) := none
  propertyType : Option (List Char) := none
  uiInfo : Option UiInfo := none
  oneQuestionAtATime : Bool := false
  deriving Repr, DecidableEq

/-- `/^(hi|hello|hey|greetings)/i`: anchored at the start of the string
(no `m` flag), so it tests whether some alternative is a case-insensitive
prefix of the message. -/
def greetingTest (message : List Char) : Bool :=
  (stripLitCI "hi".toList message).isSome || (stripLitCI "hello".toList message).isSome ||
    (stripLitCI "hey".toList message).isSome || (stripLitCI "greetings".toList message).isSome

/-- `generateTemplateResponse` (chatbotController.js 39-93): top-to-bottom
first-match-wins branches over which attributes are truthy. -/
def generateTemplateResponse (message : List Char) (leadInfo : LeadCtx) : List Char :=
  if greetingTest message then
    if jsTruthy leadInfo.name then
      "Hello ".toList ++ jsStr leadInfo.name ++
        "! How can I help you with your real estate search today?".toList
    else
      "Hello! I'm your real estate assistant. May I know your name?".toList
  else if !jsTruthy leadInfo.name && decide (message.length > 3) then
    match nameMatchScan message with
    | some cap =>
      if cap.isEmpty then
        "Thanks for your message! May I know your name so I can better assist you?".toList
      else
        "Nice to meet you, ".toList ++ trimWs cap ++
          "! What kind of property are you looking for?".toList
    | none =>
      "Thanks for your message! May I know your name so I can better assist you?".toList
  else if jsTruthy leadInfo.name && !jsTruthy leadInfo.propertyType then
    match findPropertyType (lowerStr message) propertyTypes with
    | some t =>
      "Great! I'll help you find a ".toList ++ t ++
        ". Do you have a specific budget in mind?".toList
    | none => "What type of property are you interested in? Apartment, house, condo?".toList
  else if jsTruthy leadInfo.name && jsTruthy leadInfo.propertyType &&
      !jsTruthy leadInfo.budget then
    match budgetMatchScan message with
    | some cap =>
      if cap.isEmpty then
        "What's your budget range for the ".toList ++ jsStr leadInfo.propertyType ++ "?".toList
      else "Thank you! And do you have a preferred location or area in mind?".toList
    | none =>
      "What's your budget range for the ".toList ++ jsStr leadInfo.propertyType ++ "?".toList
  else if jsTruthy leadInfo.name && jsTruthy leadInfo.propertyType &&
      jsTruthy leadInfo.budget && !jsTruthy leadInfo.preferredLocation then
    match locMatchScan message with
    | some cap =>
      if cap.isEmpty then "Which area or location are you interested in?".toList
      else
        "Perfect! I'll look for ".toList ++ jsStr leadInfo.propertyType ++
          " properties in ".toList ++ trimWs cap ++
          " within your budget. Is there anything specific you're looking for in the property?".toList
    | none => "Which area or location are you interested in?".toList
  else if jsTruthy leadInfo.name && jsTruthy leadInfo.propertyType &&
      jsTruthy leadInfo.budget && jsTruthy leadInfo.preferredLocation then
    "Thank you for providing all the details, ".toList ++ jsStr leadInfo.name ++
      ". I'll help you find ".toList ++ jsStr leadInfo.propertyType ++
      " properties in ".toList ++ jsStr leadInfo.preferredLocation ++
      " within your budget of ".toList ++ jsStr leadInfo.budget ++
      ". A real estate agent will contact you soon with some great options. Is there anything else you'd like to know?".toList
  else
    "Thank you for your message. How else can I assist you with your property search?".toList

/-! ## Response formatter (chatbotController.js 124-147)

The three global regex replaces are compiled into one-character-at-a-time
transducers so that every definition is structurally recursive (and hence
kernel-computable). Each transducer is documented with the argument that
it implements the leftmost, non-overlapping, resume-at-match-end global
replacement semantics of `String.prototype.replace`. -/

/-- `response.replace(/\n{2,}/g, '\n\n')`: every maximal run of two or
more newlines is replaced by exactly two. The parameter `n` counts the
newlines emitted for the current run (further newlines of a run of length
at least two are dropped). -/
def collapseParaAux (n : Nat) : List Char → List Char
  | [] => []
  | c :: rest =>
    if c = '\n' then
      if n ≥ 2 then collapseParaAux n rest
      else '\n' :: collapseParaAux (n + 1) rest
    else c :: collapseParaAux 0 rest

/-- The paragraph stage. -/
def collapsePara (s : List Char) : List Char := collapseParaAux 0 s

/-- Scanner state for `/^\s*-\s(.+)$/gm → '• $1'`.
A match attempt anchors at a line start (after a newline or at position
0), buffers the greedy `\s*` run (which may cross newlines), requires a
hyphen, one further `\s` character, and a nonempty capture of
non-newline characters running to the end of its line. On success the
whole match is replaced by a bullet, a space and the capture. On failure
the buffered characters are flushed verbatim; every other line-start
retry position inside the flushed region reaches the same blocking
character through the same `\s*` run and fails identically, except after
a `\s` separator that is itself a newline, where scanning must restart in
line-start mode (handled in the `cap` state below). -/
inductive BulState where
  | noStart : BulState
  | start (ws : List Char) : BulState
  | dash (ws : List Char) : BulState
  | cap (ws : List Char) (d : Char) (cap : List Char) : BulState

/-- The bullet stage transducer. -/
def bulletsAux : BulState → List Char → List Char
  | .noStart, [] => []
  | .noStart, c :: rest =>
    c :: bulletsAux (if c = '\n' then .start [] else .noStart) rest
  | .start ws, [] => ws
  | .start ws, c :: rest =>
    if isWsChar c then bulletsAux (.start (ws ++ [c])) rest
    else if c = '-' then bulletsAux (.dash ws) rest
    else ws ++ c :: bulletsAux .noStart rest
  | .dash ws, [] => ws ++ ['-']
  | .dash ws, c :: rest =>
    if isWsChar c then bulletsAux (.cap ws c []) rest
    else ws ++ '-' :: c :: bulletsAux .noStart rest
  | .cap ws d cap, [] => if cap.isEmpty then ws ++ ['-', d] else '•' :: ' ' :: cap
  | .cap ws d cap, c :: rest =>
    if c = '\n' then
      if cap.isEmpty then
        if d = '\n' then ws ++ '-' :: d :: bulletsAux (.start [c]) rest
        else ws ++ '-' :: d :: c :: bulletsAux (.start []) rest
      else '•' :: ' ' :: cap ++ c :: bulletsAux (.start []) rest
    else bulletsAux (.cap ws d (cap ++ [c])) rest

/-- The bullet stage. Position 0 is a line start. -/
def bulletStage (s : List Char) : List Char := bulletsAux (.start []) s

/-- Scanner state for `/^#+\s(.+)$/gm` replaced by the uppercased capture.
A match anchors at a line start: a maximal nonempty run of hash marks,
one `\s` character, and a nonempty capture of non-newline characters
running to the end of its line; the whole match is replaced by the
uppercased capture. There is no leading `\s*`, so no retry position
inside a flushed region can succeed (a hash run never follows a newline
inside it), except after a `\s` separator that is a newline, where
scanning restarts in line-start mode. -/
inductive HeadState where
  | mid : HeadState
  | ls : HeadState
  | hs (hashes : List Char) : HeadState
  | hcap (hashes : List Char) (d : Char) (cap : List Char) : HeadState

/-- The heading stage transducer. -/
def headAux : HeadState → List Char → List Char
  | .mid, [] => []
  | .mid, c :: rest => c :: headAux (if c = '\n' then .ls else .mid) rest
  | .ls, [] => []
  | .ls, c :: rest =>
    if c = '#' then headAux (.hs ['#']) rest
    else c :: headAux (if c = '\n' then .ls else .mid) rest
  | .hs hashes, [] => hashes
  | .hs hashes, c :: rest =>
    if c = '#' then headAux (.hs (hashes ++ [c])) rest
    else if isWsChar c then headAux (.hcap hashes c []) rest
    else hashes ++ c :: headAux .mid rest
  | .hcap hashes d cap, [] => if cap.isEmpty then hashes ++ [d] else cap.map upperChar
  | .hcap hashes d cap, c :: rest =>
    if c = '\n' then
      if cap.isEmpty then hashes ++ d :: c :: headAux .ls rest
      else cap.map upperChar ++ c :: headAux .ls rest
    else headAux (.hcap hashes d (cap ++ [c])) rest

/-- The heading stage. Position 0 is a line start. -/
def headingStage (s : List Char) : List Char := headAux .ls s

/-- `formatNotionStyleResponse` (chatbotController.js 124-147): paragraph
collapse, bullet rewriting, heading uppercasing, then — when the
processed text contains two or more question marks
(`match(/\?/g).length > 1`) — truncation to
`substring(0, indexOf('?') + 1)`, everything after the first question
mark inclusive being discarded. -/
def formatNotionStyleResponse (response : List Char) : List Char :=
  let withParagraphs := collapsePara response
  let withBullets := bulletStage withParagraphs
  let withHeadings := headingStage withBullets
  if withHeadings.count '?' ≥ 2 then
    withHeadings.take (withHeadings.findIdx (· == '?') + 1)
  else withHeadings

/-! ## Mistral completion client (mistralService.js) -/

/-- One turn of the conversation history (Lead.js `messageHistory`). -/
structure Turn where
  sender : List Char
  message : List Char
  deriving Repr, DecidableEq

/-- `choices[0].message` of the completion payload. -/
structure ApiChoiceMessage where
  content : List Char
  deriving Repr, DecidableEq

/-- One element of `response.data.choices`; the `message` field may be
absent. -/
structure ApiChoice where
  message : Option ApiChoiceMessage
  deriving Repr, DecidableEq

/-- `response.data`; the `choices` field may be absent. -/
structure ApiData where
  choices : Option (List ApiChoice)
  deriving Repr, DecidableEq

/-- Outcome of the single `axios.post` call: a 2xx response carrying a
(possibly falsy) body, a non-2xx response (axios throws with
`error.response`), or a transport failure (axios throws with
`error.request` and no response). -/
inductive RemoteOutcome where
  | respond (data : Option ApiData)
  | httpError (status : Nat)
  | transportError
  deriving Repr, DecidableEq

/-- Process configuration and remote behaviour visible to one call of the
completion client: the `MISTRAL_API_KEY` credential and what the remote
endpoint does when called. -/
structure MistralEnv where
  apiKey : Option (List Char)
  remote : RemoteOutcome
  deriving Repr, DecidableEq

/-- The failure classes raised inside the `try` block of
`MistralService.generateResponse` (mistralService.js 22-64). -/
inductive CompletionError where
  | apiKeyMissing
  | apiError
  | invalidStructure
  deriving Repr, DecidableEq

/-- The fixed fallback reply of the completion client
(mistralService.js line 82). -/
def mistralFallback : List Char :=
  "I'm sorry, I'm having trouble connecting to my AI service right now. How else can I help you with your property search?".toList

/-- The `try` block of `MistralService.generateResponse`
(mistralService.js 20-67): missing credential check, the remote call, the
response-shape validation chain
(`!response.data || !response.data.choices || !response.data.choices[0] ||
!response.data.choices[0].message`), and extraction of
`choices[0].message.content`. -/
def mistralAttempt (env : MistralEnv) : Except CompletionError (List Char) :=
  if !jsTruthy env.apiKey then .error .apiKeyMissing
  else
    match env.remote with
    | .httpError _ => .error .apiError
    | .transportError => .error .apiError
    | .respond data =>
      match data with
      | none => .error .invalidStructure
      | some d =>
        match d.choices with
        | none => .error .invalidStructure
        | some [] => .error .invalidStructure
        | some (c :: _) =>
          match c.message with
          | none => .error .invalidStructure
          | some m => .ok m.content

/-- `MistralService.generateResponse` (mistralService.js 19-84). The
whole body is wrapped in `try`/`catch`, and the `catch` arm returns the
fixed fallback string (line 82) after logging — so the returned promise
always resolves; no error escapes to the caller. `userMessage`,
`leadInfo` and `messageHistory` shape the request payload only; the
result policy depends on the environment alone. -/
def mistralGenerateResponse (env : MistralEnv) (_userMessage : List Char)
    (_leadInfo : LeadCtx) (_messageHistory : List Turn) :
    Except CompletionError (List Char) :=
  match mistralAttempt env with
  | .ok content => .ok content
  | .error _ => .ok mistralFallback

/-! ## Prompt builder (mistralService.js 110-148) -/

/-- The always-appended single-question instruction
(mistralService.js line 137). -/
def oneQuestionText : List Char :=
  "\n\nIMPORTANT INSTRUCTION: Ask only ONE question at a time. Wait for the user to respond before asking the next question. Do not ask multiple questions in a single response. Focus on getting a complete answer to one question before moving to the next topic. This creates a more natural conversation flow.\n\nEven if you have multiple questions in mind, only ask the most important one first. After the user responds, you can ask the next question based on their response. This sequential approach helps create a more engaging and personalized conversation experience.\n\nRemember: ONE QUESTION PER RESPONSE - NO EXCEPTIONS.".toList

/-- The stronger restatement appended when `oneQuestionAtATime` is set on
a non-null snapshot (mistralService.js line 141). -/
def strongOneQuestionText : List Char :=
  "\n\n⚠️ USER PREFERENCE: The user has specifically requested that you ask only ONE question at a time. This is extremely important. Never combine multiple questions in a single response. After each user reply, choose the next most logical question based on their answer.".toList

/-- The Notion-interface formatting guidance block
(mistralService.js 125-130). -/
def notionGuidanceText : List Char :=
  "\n\nYou are displayed in a Notion-like interface. Format your responses accordingly with these guidelines:\n- Use clean paragraph breaks for readability\n- Use bullet points (•) for lists\n- You can use simple formatting like UPPERCASE for emphasis\n- Keep responses concise and well-structured\n- Organize information in a clear, hierarchical manner\n".toList

/-- The condition `leadInfo && leadInfo.oneQuestionAtATime` of
mistralService.js line 140. -/
def strongCond (leadInfo : Option LeadCtx) : Bool :=
  match leadInfo with
  | some l => l.oneQuestionAtATime
  | none => false

/-- The attribute-dependent part of the system prompt built by
mistralService.js 111-134 (everything before the single-question
instruction of line 137). -/
def systemContextPrefix (leadInfo : Option LeadCtx) : List Char :=
  "You are a helpful real estate assistant. ".toList ++
    (match leadInfo with
     | none => []
     | some l =>
       "Here is what you know about the client: ".toList ++
         (if jsTruthy l.name then
            "Their name is ".toList ++ jsStr l.name ++ ". ".toList else []) ++
         (if jsTruthy l.budget then
            "Their budget is ".toList ++ jsStr l.budget ++ ". ".toList else []) ++
         (if jsTruthy l.preferredLocation then
            "They are interested in properties in ".toList ++
              jsStr l.preferredLocation ++ ". ".toList else []) ++
         (if jsTruthy l.propertyType then
            "They are looking for a ".toList ++ jsStr l.propertyType ++ ". ".toList else []) ++
         "Use this information to provide personalized assistance. ".toList ++
         (match l.uiInfo with
          | some ui => if ui.isNotionStyle then notionGuidanceText else []
          | none => [])) ++
    "Be friendly, professional, and helpful. Your goal is to collect information about their real estate needs and preferences.".toList

/-- `MistralService.createSystemMessage` (mistralService.js 110-148):
returns the `content` of the system message (whose `role` is the constant
string `system`). -/
def createSystemMessage (leadInfo : Option LeadCtx) : List Char :=
  systemContextPrefix leadInfo ++ oneQuestionText ++
    (if strongCond leadInfo then strongOneQuestionText else [])

/-! ## Generation orchestrator and lead merge (chatbotController.js) -/

/-- The `uiSize` request field. -/
structure UiSize where
  width : Nat
  height : Nat
  deriving Repr, DecidableEq

/-- `generateResponse` (chatbotController.js 96-121): copies the lead
snapshot, attaches `uiInfo` when a UI size is supplied, forces
`oneQuestionAtATime`, awaits the completion client and formats its
result; the `catch` arm falls back to the template responder. -/
def chatbotGenerateResponse (env : MistralEnv) (message : List Char)
    (leadInfo : LeadCtx) (messageHistory : List Turn) (uiSize : Option UiSize) :
    List Char :=
  let contextWithUiInfo :=
    { leadInfo with
        uiInfo :=
          match uiSize with
          | some u => some { width := u.width, height := u.height, isNotionStyle := true }
          | none => leadInfo.uiInfo
        oneQuestionAtATime := true }
  match mistralGenerateResponse env message contextWithUiInfo messageHistory with
  | .ok response => formatNotionStyleResponse response
  | .error _ => generateTemplateResponse message leadInfo

/-- The attribute merge of `processMessage` (chatbotController.js
188-192): each extracted attribute overwrites the stored one only when it
is truthy (present and nonempty). -/
def mergeExtracted (lead : LeadCtx) (extractedInfo : ExtractedInfo) : LeadCtx :=
  { lead with
      name := if jsTruthy extractedInfo.name then extractedInfo.name else lead.name
      budget := if jsTruthy extractedInfo.budget then extractedInfo.budget else lead.budget
      preferredLocation :=
        if jsTruthy extractedInfo.preferredLocation then extractedInfo.preferredLocation
        else lead.preferredLocation
      propertyType :=
        if jsTruthy extractedInfo.propertyType then extractedInfo.propertyType
        else lead.propertyType }

/-! ## Helper lemmas -/

theorem stripLitCI_self (l : List Char) : ∀ r, stripLitCI l (l ++ r) = some r := by
  induction l with
  | nil => intro r; rfl
  | cons c cs ih =>
    intro r
    simp only [List.cons_append, stripLitCI, beq_self_eq_true, if_pos]
    exact ih r

theorem nameMatchScan_append (pre : List Char) :
    ∀ rest, (∀ i, i < pre.length → tryNameAt (List.drop i (pre ++ rest)) = none) →
      nameMatchScan (pre ++ rest) = nameMatchScan rest := by
  induction pre with
  | nil => intro rest _; rfl
  | cons c cs ih =>
    intro rest h
    have h0 : tryNameAt (c :: (cs ++ rest)) = none := by
      have := h 0 (by simp)
      simpa using this
    cases rest with
    | nil =>
      simp only [List.append_nil] at h0 ⊢
      have hrec : nameMatchScan (cs ++ ([] : List Char)) = nameMatchScan [] := by
        apply ih
        intro i hi
        have := h (i + 1) (by simpa using Nat.succ_lt_succ hi)
        simpa using this
      simp only [List.append_nil] at hrec
      calc nameMatchScan (c :: cs) = (tryNameAt (c :: cs) <|> nameMatchScan cs) := rfl
        _ = nameMatchScan cs := by rw [h0]; rfl
        _ = nameMatchScan [] := hrec
    | cons r rs =>
      calc nameMatchScan ((c :: cs) ++ r :: rs)
          = (tryNameAt (c :: (cs ++ r :: rs)) <|> nameMatchScan (cs ++ r :: rs)) := rfl
        _ = nameMatchScan (cs ++ r :: rs) := by rw [h0]; rfl
        _ = nameMatchScan (r :: rs) := by
            apply ih
            intro i hi
            have := h (i + 1) (by simpa using Nat.succ_lt_succ hi)
            simpa using this

theorem takeWhile_nameChar_alice (suf : List Char)
    (hsuf : suf.head?.elim True fun c => isNameChar c = false) :
    List.takeWhile isNameChar ("Alice".toList ++ suf) = "Alice".toList := by
  have hstep : List.takeWhile isNameChar suf = [] := by
    cases suf with
    | nil => rfl
    | cons c r =>
      have hc : isNameChar c = false := hsuf
      simp [List.takeWhile, hc]
  have hall : ∀ c ∈ "Alice".toList, isNameChar c = true := by decide
  calc List.takeWhile isNameChar ("Alice".toList ++ suf)
      = "Alice".toList ++ List.takeWhile isNameChar suf :=
        List.takeWhile_append_of_pos hall
    _ = "Alice".toList := by rw [hstep, List.append_nil]

theorem findPropertyType_first (m : List Char) :
    ∀ (ts : List (List Char)) (w : List Char), w ∈ ts → w <:+: m →
      ∃ w' pre post, findPropertyType m ts = some w' ∧ w' <:+: m ∧
        ts = pre ++ w' :: post ∧ ∀ u ∈ pre, ¬ (u <:+: m) := by
  intro ts
  induction ts with
  | nil => intro w hw; cases hw
  | cons t ts ih =>
    intro w hw hin
    by_cases ht : t <:+: m
    · exact ⟨t, [], ts, by simp [findPropertyType, ht], ht, by simp, by simp⟩
    · have hw' : w ∈ ts := by
        cases List.mem_cons.mp hw with
        | inl h => exact absurd (h ▸ hin) ht
        | inr h => exact h
      obtain ⟨w', pre, post, hfind, hin', heq, hpre⟩ := ih w hw' hin
      refine ⟨w', t :: pre, post, ?_, hin', by simp [heq], ?_⟩
      · simpa [findPropertyType, ht] using hfind
      · intro u hu
        cases List.mem_cons.mp hu with
        | inl h => exact h ▸ ht
        | inr h => exact hpre u h

/-! ## Claims -/

/-- C5 (counterexample): the message "my name is Alice Smith" contains the
substring "my name is Alice", yet the extractor returns the name
"Alice Smith" (the greedy capture `[a-z\s]+` runs past "Alice"), not
"Alice". -/
theorem extract_name_alice_counterexample :
    ("my name is Alice".toList <:+: "my name is Alice Smith".toList) ∧
    (extractUserInfo "my name is Alice Smith".toList).name = some "Alice Smith".toList ∧
    some "Alice Smith".toList ≠ some "Alice".toList :=
  ⟨by decide, by decide, by decide⟩

/-- C5 (amended): if the message decomposes as `pre ++ "my name is Alice"
++ suf` where no position inside `pre` starts a name-pattern match and
`suf` does not begin with a letter or whitespace character (so the greedy
capture stops at "Alice"), then the extractor returns name "Alice". -/
theorem extract_name_alice_amended (pre suf : List Char)
    (hpre : ∀ i, i < pre.length →
      tryNameAt (List.drop i (pre ++ "my name is Alice".toList ++ suf)) = none)
    (hsuf : suf.head?.elim True fun c => isNameChar c = false) :
    (extractUserInfo (pre ++ "my name is Alice".toList ++ suf)).name =
      some "Alice".toList := by
  have hsplit : "my name is Alice".toList ++ suf =
      "my name is".toList ++ (' ' :: ("Alice".toList ++ suf)) := rfl
  have hbase : nameMatchScan ("my name is Alice".toList ++ suf) = some "Alice".toList := by
    have h1 : tryNameAt.tryPat ("my name is Alice".toList ++ suf) "my name is".toList =
        some "Alice".toList := by
      unfold tryNameAt.tryPat
      rw [hsplit, stripLitCI_self]
      show capNonempty (List.takeWhile isNameChar ("Alice".toList ++ suf)) =
        some "Alice".toList
      rw [takeWhile_nameChar_alice suf hsuf]
      rfl
    have htry : tryNameAt ("my name is Alice".toList ++ suf) = some "Alice".toList := by
      unfold tryNameAt
      rw [h1]
      rfl
    cases hmsg : "my name is Alice".toList ++ suf with
    | nil => simp at hmsg
    | cons c r =>
      rw [← hmsg]
      show (tryNameAt ("my name is Alice".toList ++ suf) <|> nameMatchScan r) = _
      rw [htry]
      rfl
  have hscan : nameMatchScan (pre ++ ("my name is Alice".toList ++ suf)) =
      some "Alice".toList := by
    rw [nameMatchScan_append pre ("my name is Alice".toList ++ suf)
      (by intro i hi; have := hpre i hi; simpa [List.append_assoc] using this)]
    exact hbase
  show (match nameMatchScan (pre ++ "my name is Alice".toList ++ suf) with
    | some cap => if cap.isEmpty then none else some (trimWs cap)
    | none => none) = some "Alice".toList
  rw [List.append_assoc, hscan]
  decide

/-- C5 (witness for the amended claim at a concrete input). -/
theorem extract_name_alice_amended_witness :
    (extractUserInfo ("Hi! ".toList ++ "my name is Alice".toList ++ ['.'])).name =
      some "Alice".toList :=
  extract_name_alice_amended "Hi! ".toList ['.'] (by decide)
    (by show isNameChar '.' = false; decide)

/-- C6: whenever the lowercased message contains a vocabulary word, the
extractor returns exactly the first vocabulary word (in the fixed
vocabulary order) contained in the message: it is contained, it is in the
vocabulary, and every strictly earlier vocabulary word is not contained. -/
theorem extract_property_type_first_vocab_match (msg w : List Char)
    (hw : w ∈ propertyTypes) (hin : w <:+: lowerStr msg) :
    ∃ w' pre post, (extractUserInfo msg).propertyType = some w' ∧
      w' <:+: lowerStr msg ∧ w' ∈ propertyTypes ∧
      propertyTypes = pre ++ w' :: post ∧ ∀ u ∈ pre, ¬ (u <:+: lowerStr msg) := by
  obtain ⟨w', pre, post, hfind, hin', heq, hpre⟩ :=
    findPropertyType_first (lowerStr msg) propertyTypes w hw hin
  exact ⟨w', pre, post, hfind, hin', by rw [heq]; simp, heq, hpre⟩

/-- C6 (witness): the message "I want a penthouse" contains both "house"
and "penthouse"; the earlier vocabulary word "house" wins. -/
theorem extract_property_type_first_vocab_match_witness :
    ∃ w' pre post,
      (extractUserInfo "I want a penthouse".toList).propertyType = some w' ∧
      w' <:+: lowerStr "I want a penthouse".toList ∧ w' ∈ propertyTypes ∧
      propertyTypes = pre ++ w' :: post ∧
      ∀ u ∈ pre, ¬ (u <:+: lowerStr "I want a penthouse".toList) :=
  extract_property_type_first_vocab_match "I want a penthouse".toList
    "penthouse".toList (by decide) (by decide)

theorem mistral_error_resolves (env : MistralEnv) (m : List Char) (l : LeadCtx)
    (h : List Turn) (e : CompletionError) (he : mistralAttempt env = .error e) :
    mistralGenerateResponse env m l h = .ok mistralFallback := by
  unfold mistralGenerateResponse
  rw [he]

theorem format_fallback_fixed :
    formatNotionStyleResponse mistralFallback = mistralFallback := by decide

/-- C1 (counterexample): with the API credential missing, the completion
client resolves successfully with the generic fallback reply string — it
does not surface a rejected or exceptional result to its caller
(mistralService.js line 82, the `catch` arm). -/
theorem mistral_missing_key_resolves_with_fallback :
    mistralGenerateResponse { apiKey := none, remote := .transportError }
        "hi".toList {} [] = .ok mistralFallback := rfl

/-- C1 (amended): for every failure mode of the remote completion call
(missing credential, transport error, non-2xx response, malformed
response shape), `MistralService.generateResponse` does not reject: it
resolves with the fixed generic fallback reply string. -/
theorem mistral_failure_resolves_with_fallback (env : MistralEnv) (m : List Char)
    (l : LeadCtx) (h : List Turn) (e : CompletionError)
    (he : mistralAttempt env = .error e) :
    mistralGenerateResponse env m l h = .ok mistralFallback :=
  mistral_error_resolves env m l h e he

/-- C1 (witness for the amended claim). -/
theorem mistral_failure_resolves_with_fallback_witness :
    mistralAttempt { apiKey := some "k".toList, remote := .httpError 401 } =
      .error .apiError ∧
    mistralGenerateResponse { apiKey := some "k".toList, remote := .httpError 401 }
        "hi".toList {} [] = .ok mistralFallback :=
  ⟨rfl, mistral_failure_resolves_with_fallback _ _ _ _ .apiError rfl⟩

/-- C2 (counterexample): with the API credential missing (a deterministic
completion-client failure), the orchestrator's output on message "hi"
with an empty lead is the fixed fallback string of the completion client,
not `generateTemplateResponse("hi", attributes)` — the client's internal
`catch` resolves with the fallback string, so the orchestrator's own
template branch is never reached. -/
theorem orchestrator_failure_differs_from_template :
    chatbotGenerateResponse { apiKey := none, remote := .transportError }
        "hi".toList {} [] none = mistralFallback ∧
    generateTemplateResponse "hi".toList {} =
      "Hello! I'm your real estate assistant. May I know your name?".toList ∧
    mistralFallback ≠
      "Hello! I'm your real estate assistant. May I know your name?".toList :=
  ⟨by decide, by decide, by decide⟩

/-- C2 (amended): for every message and lead snapshot, if the completion
client fails deterministically (its attempt yields any error), the
orchestrator's output equals the client's fixed fallback string (which
the formatter maps to itself), not the template responder's output. -/
theorem orchestrator_failure_yields_fallback_string (env : MistralEnv)
    (m : List Char) (l : LeadCtx) (h : List Turn) (ui : Option UiSize)
    (e : CompletionError) (he : mistralAttempt env = .error e) :
    chatbotGenerateResponse env m l h ui = mistralFallback := by
  unfold chatbotGenerateResponse
  simp only [mistral_error_resolves env m _ h e he]
  exact format_fallback_fixed

/-- C2 (witness for the amended claim). -/
theorem orchestrator_failure_yields_fallback_string_witness :
    mistralAttempt { apiKey := none, remote := .transportError } =
      .error .apiKeyMissing ∧
    chatbotGenerateResponse { apiKey := none, remote := .transportError }
        "hello".toList {} [] none = mistralFallback :=
  ⟨rfl, orchestrator_failure_yields_fallback_string _ _ _ _ _ .apiKeyMissing rfl⟩

/-- C3: on every failure of the remote completion call, the completion
client resolves with the fixed string "I'm sorry, I'm having trouble
connecting to my AI service right now. How else can I help you with your
property search?", the formatter maps that string to itself (it is a
fixed point of all three rewriting stages and has exactly one question
mark), and the orchestrator therefore delivers exactly that string. -/
theorem orchestrator_failure_reply_is_fixed_string (env : MistralEnv)
    (m : List Char) (l : LeadCtx) (h : List Turn) (ui : Option UiSize)
    (e : CompletionError) (he : mistralAttempt env = .error e) :
    mistralGenerateResponse env m l h = .ok mistralFallback ∧
    collapsePara mistralFallback = mistralFallback ∧
    bulletStage mistralFallback = mistralFallback ∧
    headingStage mistralFallback = mistralFallback ∧
    mistralFallback.count '?' = 1 ∧
    formatNotionStyleResponse mistralFallback = mistralFallback ∧
    chatbotGenerateResponse env m l h ui = mistralFallback := by
  refine ⟨mistral_error_resolves env m l h e he, by decide, by decide, by decide,
    by decide, format_fallback_fixed, ?_⟩
  unfold chatbotGenerateResponse
  simp only [mistral_error_resolves env m _ h e he]
  exact format_fallback_fixed

/-- C3 (witness). -/
theorem orchestrator_failure_reply_is_fixed_string_witness :
    mistralAttempt { apiKey := some "k".toList, remote := .respond none } =
      .error .invalidStructure ∧
    chatbotGenerateResponse { apiKey := some "k".toList, remote := .respond none }
        "hi there".toList {} [] none = mistralFallback :=
  ⟨rfl, (orchestrator_failure_reply_is_fixed_string
    { apiKey := some "k".toList, remote := .respond none } "hi there".toList {} [] none
    .invalidStructure rfl).2.2.2.2.2.2⟩

/-- C4 (counterexample): with all four attributes set, the message
"hello" still triggers the greeting branch (chatbotController.js 41-45),
which precedes the full-summary branch and produces a different reply —
so the full-summary reply is not returned regardless of message
content. -/
theorem template_all_attrs_greeting_counterexample :
    generateTemplateResponse "hello".toList
        { name := some "Alice".toList, budget := some "500,000".toList,
          preferredLocation := some "Pune".toList, propertyType := some "villa".toList } =
      "Hello Alice! How can I help you with your real estate search today?".toList ∧
    "Hello Alice! How can I help you with your real estate search today?".toList ≠
      "Thank you for providing all the details, Alice. I'll help you find villa properties in Pune within your budget of 500,000. A real estate agent will contact you soon with some great options. Is there anything else you'd like to know?".toList :=
  ⟨by decide, by decide⟩

/-- C4 (amended): with all four attributes set (nonempty) and a message
that does not start with a greeting token, the template responder returns
the full-summary reply naming all four attributes and announcing agent
contact, regardless of the rest of the message content. -/
theorem template_all_attrs_full_summary (msg : List Char) (l : LeadCtx)
    (hn : jsTruthy l.name = true) (hp : jsTruthy l.propertyType = true)
    (hb : jsTruthy l.budget = true) (hl : jsTruthy l.preferredLocation = true)
    (hg : greetingTest msg = false) :
    generateTemplateResponse msg l =
      "Thank you for providing all the details, ".toList ++ jsStr l.name ++
        ". I'll help you find ".toList ++ jsStr l.propertyType ++
        " properties in ".toList ++ jsStr l.preferredLocation ++
        " within your budget of ".toList ++ jsStr l.budget ++
        ". A real estate agent will contact you soon with some great options. Is there anything else you'd like to know?".toList := by
  unfold generateTemplateResponse
  simp [hn, hp, hb, hl, hg]

/-- C4 (witness for the amended claim). -/
theorem template_all_attrs_full_summary_witness :
    greetingTest "thanks a lot".toList = false ∧
    generateTemplateResponse "thanks a lot".toList
        { name := some "Alice".toList, budget := some "500,000".toList,
          preferredLocation := some "Pune".toList, propertyType := some "villa".toList } =
      "Thank you for providing all the details, Alice. I'll help you find villa properties in Pune within your budget of 500,000. A real estate agent will contact you soon with some great options. Is there anything else you'd like to know?".toList :=
  ⟨by decide, by
    have := template_all_attrs_full_summary "thanks a lot".toList
      { name := some "Alice".toList, budget := some "500,000".toList,
        preferredLocation := some "Pune".toList, propertyType := some "villa".toList }
      (by decide) (by decide) (by decide) (by decide) (by decide)
    simpa using this⟩

/-- C10: in the merge step of `processMessage`, each of the four lead
attributes is left unchanged when the extractor's output for it is absent
or empty, and is overwritten with the extracted value when it is
nonempty — so a populated attribute is never overwritten with an empty
value, and nonempty extractions win (last write wins). -/
theorem merge_preserves_populated_attributes (lead : LeadCtx) (msg : List Char) :
    (jsTruthy (extractUserInfo msg).name = false →
      (mergeExtracted lead (extractUserInfo msg)).name = lead.name) ∧
    (jsTruthy (extractUserInfo msg).name = true →
      (mergeExtracted lead (extractUserInfo msg)).name = (extractUserInfo msg).name) ∧
    (jsTruthy (extractUserInfo msg).budget = false →
      (mergeExtracted lead (extractUserInfo msg)).budget = lead.budget) ∧
    (jsTruthy (extractUserInfo msg).budget = true →
      (mergeExtracted lead (extractUserInfo msg)).budget = (extractUserInfo msg).budget) ∧
    (jsTruthy (extractUserInfo msg).preferredLocation = false →
      (mergeExtracted lead (extractUserInfo msg)).preferredLocation =
        lead.preferredLocation) ∧
    (jsTruthy (extractUserInfo msg).preferredLocation = true →
      (mergeExtracted lead (extractUserInfo msg)).preferredLocation =
        (extractUserInfo msg).preferredLocation) ∧
    (jsTruthy (extractUserInfo msg).propertyType = false →
      (mergeExtracted lead (extractUserInfo msg)).propertyType = lead.propertyType) ∧
    (jsTruthy (extractUserInfo msg).propertyType = true →
      (mergeExtracted lead (extractUserInfo msg)).propertyType =
        (extractUserInfo msg).propertyType) := by
  refine ⟨?_, ?_, ?_, ?_, ?_, ?_, ?_, ?_⟩ <;> intro hcond <;>
    simp [mergeExtracted, hcond]

/-- C10 (witness): the message "i am Bob" extracts a nonempty name and no
budget; merging overwrites the name and leaves the stored budget
unchanged. -/
theorem merge_preserves_populated_attributes_witness :
    jsTruthy (extractUserInfo "i am Bob".toList).name = true ∧
    (mergeExtracted { budget := some "500".toList }
      (extractUserInfo "i am Bob".toList)).name = (extractUserInfo "i am Bob".toList).name ∧
    jsTruthy (extractUserInfo "i am Bob".toList).budget = false ∧
    (mergeExtracted { budget := some "500".toList }
      (extractUserInfo "i am Bob".toList)).budget = some "500".toList :=
  ⟨by decide,
    (merge_preserves_populated_attributes { budget := some "500".toList }
      "i am Bob".toList).2.1 (by decide),
    by decide,
    (merge_preserves_populated_attributes { budget := some "500".toList }
      "i am Bob".toList).2.2.1 (by decide)⟩

/-! ## Question-mark counting through the formatter stages -/

theorem collapseParaAux_count_q :
    ∀ (s : List Char) (n : Nat), (collapseParaAux n s).count '?' = s.count '?' := by
  intro s
  induction s with
  | nil => intro n; rfl
  | cons c r ih =>
    intro n
    by_cases hc : c = '\n'
    · subst hc
      by_cases hn : n ≥ 2
      · simp [collapseParaAux, hn, ih, List.count_cons]
      · simp [collapseParaAux, hn, ih n.succ, List.count_cons]
    · simp [collapseParaAux, hc, ih 0, List.count_cons]

theorem count_q_eq_zero_of_not_mem {l : List Char} (h : '?' ∉ l) : l.count '?' = 0 :=
  List.count_eq_zero.mpr h

theorem bulletsAux_count_q :
    ∀ s : List Char,
      ((bulletsAux .noStart s).count '?' = s.count '?') ∧
      (∀ ws, '?' ∉ ws → (bulletsAux (.start ws) s).count '?' = s.count '?') ∧
      (∀ ws, '?' ∉ ws → (bulletsAux (.dash ws) s).count '?' = s.count '?') ∧
      (∀ ws d cap, '?' ∉ ws → d ≠ '?' →
        (bulletsAux (.cap ws d cap) s).count '?' = cap.count '?' + s.count '?') := by
  intro s
  induction s with
  | nil =>
    refine ⟨rfl, ?_, ?_, ?_⟩
    · intro ws hws
      simp [bulletsAux, count_q_eq_zero_of_not_mem hws]
    · intro ws hws
      simp [bulletsAux, List.count_append, count_q_eq_zero_of_not_mem hws, List.count_cons]
    · intro ws d cap hws hd
      by_cases hcap : cap.isEmpty
      · simp [bulletsAux, hcap, List.count_append, count_q_eq_zero_of_not_mem hws,
          List.count_cons, List.isEmpty_iff.mp hcap, Ne.symm hd]
      · simp [bulletsAux, hcap, List.count_cons]
  | cons c r ih =>
    obtain ⟨ih1, ih2, ih3, ih4⟩ := ih
    refine ⟨?_, ?_, ?_, ?_⟩
    · by_cases hc : c = '\n'
      · simp [bulletsAux, hc, ih2 [] (by simp), List.count_cons]
      · simp [bulletsAux, hc, ih1, List.count_cons]
    · intro ws hws
      by_cases hw : isWsChar c
      · have hcq : c ≠ '?' := by rintro rfl; simp [isWsChar] at hw
        have : '?' ∉ ws ++ [c] := by
          simp [List.mem_append, hws, Ne.symm hcq]
        simp [bulletsAux, hw, ih2 (ws ++ [c]) this, List.count_cons, Ne.symm hcq]
      · by_cases hd : c = '-'
        · subst hd
          simp [bulletsAux, (by decide : isWsChar '-' = false), ih3 ws hws,
            List.count_cons]
        · simp [bulletsAux, hw, hd, List.count_append, ih1,
            count_q_eq_zero_of_not_mem hws, List.count_cons]
    · intro ws hws
      by_cases hw : isWsChar c
      · have hcq : c ≠ '?' := by rintro rfl; simp [isWsChar] at hw
        simp [bulletsAux, hw, ih4 ws c [] hws hcq, List.count_cons, Ne.symm hcq]
      · simp [bulletsAux, hw, List.count_append, ih1,
          count_q_eq_zero_of_not_mem hws, List.count_cons]
    · intro ws d cap hws hd
      by_cases hc : c = '\n'
      · subst hc
        by_cases hcap : cap.isEmpty
        · by_cases hdn : d = '\n'
          · simp [bulletsAux, hcap, hdn, List.count_append,
              count_q_eq_zero_of_not_mem hws, List.count_cons,
              ih2 ['\n'] (by simp), List.isEmpty_iff.mp hcap]
          · simp [bulletsAux, hcap, hdn, List.count_append,
              count_q_eq_zero_of_not_mem hws, List.count_cons,
              ih2 [] (by simp), List.isEmpty_iff.mp hcap, Ne.symm hd]
        · simp [bulletsAux, hcap, List.count_append, List.count_cons,
            ih2 [] (by simp)]
      · have : '?' ∉ ws → (bulletsAux (.cap ws d (cap ++ [c])) r).count '?' =
            (cap ++ [c]).count '?' + r.count '?' := fun h => ih4 ws d (cap ++ [c]) h hd
        simp [bulletsAux, hc, this hws, List.count_append, List.count_cons]
        omega

theorem upperChar_eq_q (c : Char) : upperChar c = '?' ↔ c = '?' := by
  unfold upperChar
  split <;> first | decide | exact Iff.rfl

theorem count_q_map_upperChar :
    ∀ l : List Char, (l.map upperChar).count '?' = l.count '?' := by
  intro l
  induction l with
  | nil => rfl
  | cons c r ih =>
    simp only [List.map_cons, List.count_cons, ih]
    by_cases hc : c = '?'
    · simp [hc, upperChar_eq_q]
    · simp [beq_iff_eq, hc, (upperChar_eq_q c).not.mpr hc]

theorem headAux_count_q :
    ∀ s : List Char,
      ((headAux .mid s).count '?' = s.count '?') ∧
      ((headAux .ls s).count '?' = s.count '?') ∧
      (∀ hs_, '?' ∉ hs_ → (headAux (.hs hs_) s).count '?' = s.count '?') ∧
      (∀ hs_ d cap, '?' ∉ hs_ → d ≠ '?' →
        (headAux (.hcap hs_ d cap) s).count '?' = cap.count '?' + s.count '?') := by
  intro s
  induction s with
  | nil =>
    refine ⟨rfl, rfl, ?_, ?_⟩
    · intro hs_ h
      simp [headAux, count_q_eq_zero_of_not_mem h]
    · intro hs_ d cap h hd
      by_cases hcap : cap.isEmpty
      · simp [headAux, hcap, List.count_append, count_q_eq_zero_of_not_mem h,
          List.count_cons, List.isEmpty_iff.mp hcap, Ne.symm hd]
      · simp [headAux, hcap, count_q_map_upperChar]
  | cons c r ih =>
    obtain ⟨ih1, ih2, ih3, ih4⟩ := ih
    refine ⟨?_, ?_, ?_, ?_⟩
    · by_cases hc : c = '\n'
      · simp [headAux, hc, ih2, List.count_cons]
      · simp [headAux, hc, ih1, List.count_cons]
    · by_cases hh : c = '#'
      · subst hh
        simp [headAux, ih3 ['#'] (by simp), List.count_cons]
      · by_cases hc : c = '\n'
        · simp [headAux, hh, hc, ih2, List.count_cons]
        · simp [headAux, hh, hc, ih1, List.count_cons]
    · intro hs_ h
      by_cases hh : c = '#'
      · subst hh
        have : '?' ∉ hs_ ++ ['#'] := by simp [List.mem_append, h]
        simp [headAux, ih3 (hs_ ++ ['#']) this, List.count_cons]
      · by_cases hw : isWsChar c
        · have hcq : c ≠ '?' := by rintro rfl; simp [isWsChar] at hw
          simp [headAux, hh, hw, ih4 hs_ c [] h hcq, List.count_cons, Ne.symm hcq]
        · simp [headAux, hh, hw, List.count_append, ih1,
            count_q_eq_zero_of_not_mem h, List.count_cons]
    · intro hs_ d cap h hd
      by_cases hc : c = '\n'
      · subst hc
        by_cases hcap : cap.isEmpty
        · simp [headAux, hcap, List.count_append, count_q_eq_zero_of_not_mem h,
            List.count_cons, ih2, List.isEmpty_iff.mp hcap, Ne.symm hd]
        · simp [headAux, hcap, List.count_append, List.count_cons, ih2,
            count_q_map_upperChar]
      · have hrec := ih4 hs_ d (cap ++ [c]) h hd
        simp [headAux, hc, hrec, List.count_append, List.count_cons]
        omega

theorem processed_count_q (s : List Char) :
    (headingStage (bulletStage (collapsePara s))).count '?' = s.count '?' := by
  unfold headingStage bulletStage collapsePara
  rw [(headAux_count_q _).2.1, (bulletsAux_count_q _).2.1 [] (by simp),
    collapseParaAux_count_q]

theorem take_findIdx_q :
    ∀ w : List Char, '?' ∈ w →
      w.take (w.findIdx (· == '?') + 1) = w.takeWhile (· != '?') ++ ['?'] := by
  intro w
  induction w with
  | nil => intro h; cases h
  | cons c r ih =>
    intro h
    by_cases hc : c = '?'
    · subst hc
      simp [List.findIdx_cons, List.takeWhile_cons]
    · have hr : '?' ∈ r := by
        cases List.mem_cons.mp h with
        | inl he => exact absurd he.symm hc
        | inr hm => exact hm
      have hbeq : (c == '?') = false := beq_false_of_ne hc
      simp [List.findIdx_cons, hbeq, List.takeWhile_cons, List.take_succ_cons, ih hr, hc]

theorem count_q_take_first (w : List Char) :
    (w.takeWhile (· != '?') ++ ['?']).count '?' = 1 := by
  have hz : (w.takeWhile (· != '?')).count '?' = 0 := by
    apply count_q_eq_zero_of_not_mem
    intro hmem
    have := List.mem_takeWhile_imp hmem
    simp at this
  simp [List.count_append, hz]

/-- C7: when the processed text (paragraph, bullet and heading stages)
contains two or more question marks — equivalently, when the input does,
since the three stages preserve the question-mark count — the formatter
returns the prefix of the processed text ending immediately after its
first question mark (everything later is discarded, the result ends with
the question mark, and exactly one question mark remains); with at most
one question mark the processed text is returned untruncated. -/
theorem formatter_single_question_truncation (s : List Char) :
    (2 ≤ s.count '?' →
      formatNotionStyleResponse s =
        (headingStage (bulletStage (collapsePara s))).take
          ((headingStage (bulletStage (collapsePara s))).findIdx (· == '?') + 1) ∧
      formatNotionStyleResponse s <+: headingStage (bulletStage (collapsePara s)) ∧
      (formatNotionStyleResponse s).getLast? = some '?' ∧
      (formatNotionStyleResponse s).count '?' = 1) ∧
    (s.count '?' ≤ 1 →
      formatNotionStyleResponse s = headingStage (bulletStage (collapsePara s))) := by
  have hcnt := processed_count_q s
  constructor
  · intro h2
    have hc2 : 2 ≤ (headingStage (bulletStage (collapsePara s))).count '?' := by
      rw [hcnt]; exact h2
    have hmem : '?' ∈ headingStage (bulletStage (collapsePara s)) := by
      rw [← List.count_pos_iff]; omega
    have heq : formatNotionStyleResponse s =
        (headingStage (bulletStage (collapsePara s))).take
          ((headingStage (bulletStage (collapsePara s))).findIdx (· == '?') + 1) := by
      unfold formatNotionStyleResponse
      simp only [if_pos hc2]
    refine ⟨heq, ?_, ?_, ?_⟩
    · rw [heq]; exact List.take_prefix _ _
    · rw [heq, take_findIdx_q _ hmem, List.getLast?_concat]
    · rw [heq, take_findIdx_q _ hmem, count_q_take_first _]
  · intro h1
    have hc1 : ¬ 2 ≤ (headingStage (bulletStage (collapsePara s))).count '?' := by
      rw [hcnt]; omega
    unfold formatNotionStyleResponse
    simp only [if_neg hc1]

/-- C7 (witness at a concrete two-question input). -/
theorem formatter_single_question_truncation_witness :
    2 ≤ ("a? b?".toList).count '?' ∧
    (formatNotionStyleResponse "a? b?".toList).getLast? = some '?' ∧
    formatNotionStyleResponse "a? b?".toList <+:
      headingStage (bulletStage (collapsePara "a? b?".toList)) :=
  ⟨by decide,
    ((formatter_single_question_truncation "a? b?".toList).1 (by decide)).2.2.1,
    ((formatter_single_question_truncation "a? b?".toList).1 (by decide)).2.1⟩

/-! ## Fixed points of the formatter stages -/

/-- Runs of newlines are admissible after `n` pending newlines: no point
of the text extends a run of two newlines by a third. -/
def okRun : Nat → List Char → Bool
  | _, [] => true
  | n, c :: r => if c = '\n' then decide (n < 2) && okRun (n + 1) r else okRun 0 r

theorem okRun_collapseParaAux :
    ∀ (s : List Char) (n : Nat), okRun (min n 2) (collapseParaAux n s) = true := by
  intro s
  induction s with
  | nil => intro n; rfl
  | cons c r ih =>
    intro n
    by_cases hc : c = '\n'
    · subst hc
      by_cases hn : n ≥ 2
      · have h2 : min n 2 = 2 := by omega
        have := ih n
        rw [h2] at this ⊢
        simpa [collapseParaAux, hn] using this
      · have hm : min n 2 = n := by omega
        have := ih (n + 1)
        rw [(by omega : min (n + 1) 2 = n + 1)] at this
        rw [hm]
        simp [collapseParaAux, hn, okRun, this]
        omega
    · have := ih 0
      simp [collapseParaAux, hc, okRun]
      simpa using this

theorem collapseParaAux_eq_self :
    ∀ (s : List Char) (n : Nat), okRun n s = true → collapseParaAux n s = s := by
  intro s
  induction s with
  | nil => intro n _; rfl
  | cons c r ih =>
    intro n h
    by_cases hc : c = '\n'
    · subst hc
      simp only [okRun] at h
      simp at h
      have hlt : ¬ n ≥ 2 := by omega
      simp only [collapseParaAux, if_true]
      rw [if_neg hlt, ih (n + 1) h.2]
    · simp only [okRun, if_neg hc] at h
      simp [collapseParaAux, hc, ih 0 h]

theorem okRun_take :
    ∀ (s : List Char) (n k : Nat), okRun n s = true → okRun n (s.take k) = true := by
  intro s
  induction s with
  | nil => intro n k _; simp [okRun, List.take_nil]
  | cons c r ih =>
    intro n k h
    cases k with
    | zero => rfl
    | succ k =>
      by_cases hc : c = '\n'
      · subst hc
        simp only [okRun] at h
        simp at h
        simp only [List.take_succ_cons, okRun]
        simp [ih (n + 1) k h.2]
        omega
      · simp only [okRun, if_neg hc] at h
        simp only [List.take_succ_cons, okRun, if_neg hc]
        exact ih 0 k h

theorem collapseParaAux_mem :
    ∀ (s : List Char) (n : Nat) (c : Char), c ∈ collapseParaAux n s → c ∈ s := by
  intro s
  induction s with
  | nil => intro n c h; simp [collapseParaAux] at h
  | cons a r ih =>
    intro n c h
    by_cases ha : a = '\n'
    · subst ha
      by_cases hn : n ≥ 2
      · simp only [collapseParaAux, if_true] at h
        simp [hn] at h
        exact List.mem_cons_of_mem _ (ih n c h)
      · simp only [collapseParaAux, if_true] at h
        simp [hn] at h
        rcases h with he | hm
        · exact he ▸ List.mem_cons_self _ _
        · exact List.mem_cons_of_mem _ (ih (n + 1) c hm)
    · simp only [collapseParaAux] at h
      rw [if_neg ha] at h
      rcases List.mem_cons.mp h with he | hm
      · exact he ▸ List.mem_cons_self _ _
      · exact List.mem_cons_of_mem _ (ih 0 c hm)

theorem bulletsAux_eq_self_of_no_dash :
    ∀ s : List Char, '-' ∉ s →
      bulletsAux .noStart s = s ∧ ∀ ws, bulletsAux (.start ws) s = ws ++ s := by
  intro s
  induction s with
  | nil =>
    intro _
    exact ⟨rfl, fun ws => by simp [bulletsAux]⟩
  | cons c r ih =>
    intro h
    have hc : c ≠ '-' := fun he => h (he ▸ List.mem_cons_self _ _)
    have hr : '-' ∉ r := fun hm => h (List.mem_cons_of_mem _ hm)
    obtain ⟨ih1, ih2⟩ := ih hr
    constructor
    · by_cases hn : c = '\n'
      · simp [bulletsAux, hn, ih2 []]
      · simp [bulletsAux, hn, ih1]
    · intro ws
      by_cases hw : isWsChar c
      · have hn : c = '\n' ∨ c ≠ '\n' := em _
        simp [bulletsAux, hw, ih2 (ws ++ [c])]
      · have hnn : c ≠ '\n' := fun he => hw (by simp [he, isWsChar])
        simp [bulletsAux, hw, hc, ih1]

theorem headAux_eq_self_of_no_hash :
    ∀ s : List Char, '#' ∉ s → headAux .mid s = s ∧ headAux .ls s = s := by
  intro s
  induction s with
  | nil => intro _; exact ⟨rfl, rfl⟩
  | cons c r ih =>
    intro h
    have hc : c ≠ '#' := fun he => h (he ▸ List.mem_cons_self _ _)
    have hr : '#' ∉ r := fun hm => h (List.mem_cons_of_mem _ hm)
    obtain ⟨ih1, ih2⟩ := ih hr
    constructor
    · by_cases hn : c = '\n'
      · simp [headAux, hn, ih2]
      · simp [headAux, hn, ih1]
    · by_cases hn : c = '\n'
      · simp [headAux, hc, hn, ih2]
      · simp [headAux, hc, hn, ih1]

/-- C8 (counterexample): the formatter is not idempotent. On the input
"# - hello" the heading stage produces "- HELLO", and a second
application turns that hyphen line into the bullet line "• HELLO". -/
theorem formatter_not_idempotent_counterexample :
    formatNotionStyleResponse (formatNotionStyleResponse "# - hello".toList) ≠
      formatNotionStyleResponse "# - hello".toList := by decide

/-- C8 (amended): the formatter is idempotent on every input containing
no hash mark and no hyphen (so the bullet and heading rewrites are
inactive; the paragraph collapse and single-question truncation are
idempotent in composition). -/
theorem formatter_idempotent_no_hyphen_no_hash (t : List Char)
    (hd : '-' ∉ t) (hh : '#' ∉ t) :
    formatNotionStyleResponse (formatNotionStyleResponse t) =
      formatNotionStyleResponse t := by
  have hdp : '-' ∉ collapsePara t := fun hc => hd (collapseParaAux_mem t 0 '-' hc)
  have hhp : '#' ∉ collapsePara t := fun hc => hh (collapseParaAux_mem t 0 '#' hc)
  have hB : bulletStage (collapsePara t) = collapsePara t := by
    have := (bulletsAux_eq_self_of_no_dash (collapsePara t) hdp).2 []
    simpa [bulletStage] using this
  have hH : headingStage (collapsePara t) = collapsePara t :=
    (headAux_eq_self_of_no_hash (collapsePara t) hhp).2
  have hok : okRun 0 (collapsePara t) = true := by
    have := okRun_collapseParaAux t 0
    simpa using this
  have hfmt : formatNotionStyleResponse t =
      (if 2 ≤ (collapsePara t).count '?' then
        (collapsePara t).take ((collapsePara t).findIdx (· == '?') + 1)
      else collapsePara t) := by
    unfold formatNotionStyleResponse
    simp only [hB, hH]
  have second : ∀ z : List Char, '-' ∉ z → '#' ∉ z → okRun 0 z = true →
      ¬ 2 ≤ z.count '?' → formatNotionStyleResponse z = z := by
    intro z hdz hhz hokz hcz
    have hPz : collapsePara z = z := collapseParaAux_eq_self z 0 hokz
    have hBz : bulletStage z = z := by
      have := (bulletsAux_eq_self_of_no_dash z hdz).2 []
      simpa [bulletStage] using this
    have hHz : headingStage z = z := (headAux_eq_self_of_no_hash z hhz).2
    unfold formatNotionStyleResponse
    simp only [hPz, hBz, hHz, if_neg hcz]
  by_cases hq : 2 ≤ (collapsePara t).count '?'
  · have hz : formatNotionStyleResponse t =
        (collapsePara t).take ((collapsePara t).findIdx (· == '?') + 1) := by
      rw [hfmt, if_pos hq]
    have hpref : formatNotionStyleResponse t <+: collapsePara t := by
      rw [hz]; exact List.take_prefix _ _
    have hmem : '?' ∈ collapsePara t := by
      rw [← List.count_pos_iff]; omega
    have hcnt : (formatNotionStyleResponse t).count '?' = 1 := by
      rw [hz, take_findIdx_q _ hmem, count_q_take_first _]
    refine second _ (fun hc => hdp (hpref.subset hc)) (fun hc => hhp (hpref.subset hc))
      ?_ (by omega)
    rw [hz]
    exact okRun_take _ 0 _ hok
  · have hz : formatNotionStyleResponse t = collapsePara t := by
      rw [hfmt, if_neg hq]
    refine second _ (hz ▸ hdp) (hz ▸ hhp) (hz ▸ hok) (hz ▸ hq)

/-- C8 (witness for the amended claim at a concrete input). -/
theorem formatter_idempotent_no_hyphen_no_hash_witness :
    ('-' ∉ "ok?\n\n\n\nfine? sure?".toList) ∧
    formatNotionStyleResponse (formatNotionStyleResponse "ok?\n\n\n\nfine? sure?".toList) =
      formatNotionStyleResponse "ok?\n\n\n\nfine? sure?".toList :=
  ⟨by decide,
    formatter_idempotent_no_hyphen_no_hash "ok?\n\n\n\nfine? sure?".toList
      (by decide) (by decide)⟩


/-- C9: the system prompt built by `createSystemMessage` always contains
the single-question-per-turn instruction, for every snapshot (including
the null snapshot); and the prompt ends with the second, stronger
restatement of that constraint (the appended block of mistralService.js
line 141) exactly when the `oneQuestionAtATime` flag is set on a non-null
snapshot — otherwise the prompt ends with the ordinary instruction
instead, whose tail differs from the restatement. -/
theorem system_message_one_question_instruction (leadInfo : Option LeadCtx) :
    (oneQuestionText <:+: createSystemMessage leadInfo) ∧
    ((strongOneQuestionText <:+ createSystemMessage leadInfo) ↔
      strongCond leadInfo = true) := by
  constructor
  · exact ⟨systemContextPrefix leadInfo,
      (if strongCond leadInfo then strongOneQuestionText else []), rfl⟩
  · cases hc : strongCond leadInfo
    · refine iff_of_false ?_ (by simp)
      intro hsuf
      have hone : oneQuestionText <:+ createSystemMessage leadInfo :=
        ⟨systemContextPrefix leadInfo, by simp [createSystemMessage, hc]⟩
      rcases List.prefix_or_prefix_of_prefix (List.reverse_prefix.mpr hsuf)
          (List.reverse_prefix.mpr hone) with h | h
      · exact absurd h (by decide)
      · exact absurd h (by decide)
    · refine iff_of_true ?_ rfl
      exact ⟨systemContextPrefix leadInfo ++ oneQuestionText,
        by simp [createSystemMessage, hc]⟩

/-- C9 (witness): with the flag set on a non-null snapshot, the prompt
ends with the stronger restatement. -/
theorem system_message_one_question_instruction_witness :
    strongOneQuestionText <:+ createSystemMessage (some { oneQuestionAtATime := true }) :=
  (system_message_one_question_instruction (some { oneQuestionAtATime := true })).2.mpr rfl
